import Mathlib

/-!
Shallow embedding of the Cogni-CAD scene-interaction core
(frontend/src/store/uiStore.js and the ThreeCanvas / OrientationCube
components), together with proofs about the embedded operations.

Conventions:
* JavaScript numbers are modelled as rationals where the source only
  performs field arithmetic and comparisons, and as real numbers where
  the source takes square roots or trigonometric functions.
* `three.js` vectors are the structure `Vec3`; library operations used
  by the source (`lerp`, `distanceTo`, `applyQuaternion`,
  `setFromSpherical`, `Line3.closestPointToPoint`) are embedded from the
  `three.js` implementations the code calls.
-/

namespace CogniCAD

/-! ## uiStore.js : the measurement slice of the UI store -/

/-- State of the measurement slice of the zustand store in
`frontend/src/store/uiStore.js`.  The payload pushed by `addMeasurePoint`
is opaque to the store, so it is a type parameter. -/
structure UIStoreState (α : Type) where
  measureMode : Bool
  measurePoints : List α
  deriving Repr, DecidableEq

/-- The store's initial state: `measureMode: false, measurePoints: []`. -/
def initialStore (α : Type) : UIStoreState α :=
  { measureMode := false, measurePoints := [] }

/-- Embeds `addMeasurePoint` from uiStore.js:
`if (state.measurePoints.length >= 2) newPoints = [point];
else newPoints = [...state.measurePoints, point]`. -/
def addMeasurePoint {α : Type} (point : α) (s : UIStoreState α) : UIStoreState α :=
  { s with measurePoints :=
      if 2 ≤ s.measurePoints.length then [point] else s.measurePoints ++ [point] }

/-- Embeds `setMeasureMode`:
`set({ measureMode: active, measurePoints: [] })`. -/
def setMeasureMode {α : Type} (active : Bool) (s : UIStoreState α) : UIStoreState α :=
  { s with measureMode := active, measurePoints := [] }

/-- An action on the measurement slice of the store. -/
inductive StoreOp (α : Type) where
  | add (point : α)
  | setMode (active : Bool)

/-- Applies one store action. -/
def applyOp {α : Type} (s : UIStoreState α) (op : StoreOp α) : UIStoreState α :=
  match op with
  | StoreOp.add p => addMeasurePoint p s
  | StoreOp.setMode b => setMeasureMode b s

/-- Runs a sequence of store actions from a given state. -/
def runOps {α : Type} (ops : List (StoreOp α)) (s : UIStoreState α) : UIStoreState α :=
  ops.foldl applyOp s

/-! ## ThreeCanvas.jsx : material normalization (AssetNormalizer) -/

/-- Rendering side of a three.js material; the normalizer forces
`THREE.DoubleSide`. -/
inductive Side where
  | FrontSide
  | BackSide
  | DoubleSide
  deriving Repr, DecidableEq

/-- An RGB color with channels in `[0,1]`, as in `THREE.Color`. -/
structure ColorRGB where
  r : ℚ
  g : ℚ
  b : ℚ
  deriving Repr, DecidableEq

/-- The fields of a three.js material that the viewer touches.
`metalness`/`roughness` are `Option`s because the source guards them with
`typeof child.material.metalness === 'number'`; `hasMap` stands for
`child.material.map` being non-null. -/
structure Material where
  color : ColorRGB
  side : Side
  transparent : Bool
  opacity : ℚ
  depthWrite : Bool
  depthTest : Bool
  metalness : Option ℚ
  roughness : Option ℚ
  envMapIntensity : ℚ
  vertexColors : Bool
  hasMap : Bool
  deriving Repr, DecidableEq

/-- The neutral gray `0xc0c0c0` substituted for near-white untextured
base colors. -/
def silverColor : ColorRGB := ⟨192/255, 192/255, 192/255⟩

/-- Embeds the per-mesh material fix-up loop of `ModelViewer`
(ThreeCanvas.jsx): double side, transparent with opacity 0.9, depth
write/test on, `metalness > 0.9 → 0.6`, `roughness < 0.1 → 0.3`,
envMapIntensity 1.2, near-white untextured color replaced by gray, and
`vertexColors` enabled when the geometry has a color attribute
(`hasGeomColorAttr`). -/
def normalizeMaterial (hasGeomColorAttr : Bool) (m : Material) : Material :=
  { m with
    side := Side.DoubleSide
    transparent := true
    opacity := 9/10
    depthWrite := true
    depthTest := true
    metalness := m.metalness.map (fun x => if 9/10 < x then 3/5 else x)
    roughness := m.roughness.map (fun x => if x < 1/10 then 3/10 else x)
    envMapIntensity := 6/5
    color :=
      if ¬ m.hasMap ∧ 23/25 < m.color.r ∧ 23/25 < m.color.g ∧ 23/25 < m.color.b then
        silverColor
      else m.color
    vertexColors := if hasGeomColorAttr then true else m.vertexColors }

/-- A concrete loaded material used as a counterexample input: metalness
0.8 and roughness 0.2, values the normalizer leaves untouched. -/
def cexMaterial : Material :=
  { color := ⟨1/2, 1/2, 1/2⟩
    side := Side.FrontSide
    transparent := false
    opacity := 1
    depthWrite := true
    depthTest := true
    metalness := some (4/5)
    roughness := some (1/5)
    envMapIntensity := 1
    vertexColors := false
    hasMap := false }

/-! ## Claims about the store -/

/-- C1 (code divergence): starting from the empty store, three successive
`addMeasurePoint` pushes leave a buffer of size 1 holding only the third
point — the third point is stored alone, so the buffer never reaches the
claimed capacity of 3 and the 4th-push reset can never be exercised. -/
theorem addMeasurePoint_capacity_bug :
    (runOps [StoreOp.add 0, StoreOp.add 1, StoreOp.add 2] (initialStore ℕ)).measurePoints
      = [2]
    ∧ (runOps [StoreOp.add 0, StoreOp.add 1, StoreOp.add 2] (initialStore ℕ)).measurePoints
      ≠ [0, 1, 2] := by
  decide

/-- C10: from the initial state, any sequence of `addMeasurePoint` /
`setMeasureMode` actions keeps at most 2 stored points; a push made with
2 (or more) points stored replaces the buffer by the new point alone, and
`setMeasureMode` (with either flag value) empties the buffer. -/
theorem measure_buffer_invariant {α : Type} (ops : List (StoreOp α)) :
    (runOps ops (initialStore α)).measurePoints.length ≤ 2
    ∧ (∀ (p : α) (s : UIStoreState α), 2 ≤ s.measurePoints.length →
        (addMeasurePoint p s).measurePoints = [p])
    ∧ (∀ (b : Bool) (s : UIStoreState α), (setMeasureMode b s).measurePoints = []) := by
  refine ⟨?_, ?_, ?_⟩
  · have key : ∀ (l : List (StoreOp α)) (s : UIStoreState α),
        s.measurePoints.length ≤ 2 → (runOps l s).measurePoints.length ≤ 2 := by
      intro l
      induction l with
      | nil => intro s hs; exact hs
      | cons op rest ih =>
        intro s hs
        refine ih (applyOp s op) ?_
        cases op with
        | add p =>
          simp only [applyOp, addMeasurePoint]
          split
          · simp
          · rename_i hlen
            have : s.measurePoints.length ≤ 1 := by omega
            simp [List.length_append]
            omega
        | setMode b => simp [applyOp, setMeasureMode]
    exact key ops (initialStore α) (by simp [initialStore])
  · intro p s hs
    simp [addMeasurePoint, hs]
  · intro b s
    simp [setMeasureMode]

/-- C10 witness: after pushing two points the buffer has 2 entries, a
third push leaves exactly the new point, and toggling measure mode clears
everything. -/
theorem measure_buffer_invariant_witness :
    (runOps [StoreOp.add 10, StoreOp.add 11] (initialStore ℕ)).measurePoints.length ≤ 2
    ∧ (addMeasurePoint 12
        (runOps [StoreOp.add 10, StoreOp.add 11] (initialStore ℕ))).measurePoints = [12]
    ∧ (setMeasureMode true
        (runOps [StoreOp.add 10, StoreOp.add 11] (initialStore ℕ))).measurePoints = [] :=
  ⟨(measure_buffer_invariant [StoreOp.add 10, StoreOp.add 11]).1,
   (measure_buffer_invariant [StoreOp.add 10, StoreOp.add 11]).2.1 12 _ (by decide),
   (measure_buffer_invariant [StoreOp.add 10, StoreOp.add 11]).2.2 true _⟩

/-! ## Claims about material normalization -/

/-- C2 counterexample: the normalizer leaves a loaded metalness of 0.8
and roughness of 0.2 unchanged, so the claimed bounds `metalness ≤ 0.6`
and `roughness ≥ 0.3` fail on this input. -/
theorem normalizeMaterial_partial_clamp_cex :
    (normalizeMaterial false cexMaterial).metalness = some (4/5)
    ∧ (normalizeMaterial false cexMaterial).roughness = some (1/5)
    ∧ ¬ ((4:ℚ)/5 ≤ 3/5)
    ∧ ¬ ((3:ℚ)/10 ≤ 1/5) := by
  refine ⟨?_, ?_, by norm_num, by norm_num⟩ <;>
    norm_num [normalizeMaterial, cexMaterial]

/-- C2 (amended): after normalization every mesh material has opacity
0.9, is transparent and double-sided; a metalness above 0.9 is reduced to
0.6 and a roughness below 0.1 is raised to 0.3, while values outside
those ranges are kept — hence the final metalness is at most 0.9 and the
final roughness at least 0.1 (not 0.6 / 0.3 as the claim stated). -/
theorem normalizeMaterial_spec (g : Bool) (m : Material) :
    (normalizeMaterial g m).opacity = 9/10
    ∧ (normalizeMaterial g m).side = Side.DoubleSide
    ∧ (normalizeMaterial g m).transparent = true
    ∧ (∀ x : ℚ, m.metalness = some x →
        (normalizeMaterial g m).metalness = some (if 9/10 < x then 3/5 else x))
    ∧ (∀ x y : ℚ, m.metalness = some x →
        (normalizeMaterial g m).metalness = some y → y ≤ 9/10)
    ∧ (∀ x : ℚ, m.roughness = some x →
        (normalizeMaterial g m).roughness = some (if x < 1/10 then 3/10 else x))
    ∧ (∀ x y : ℚ, m.roughness = some x →
        (normalizeMaterial g m).roughness = some y → 1/10 ≤ y) := by
  refine ⟨rfl, rfl, rfl, ?_, ?_, ?_, ?_⟩
  · intro x hx
    simp [normalizeMaterial, hx]
  · intro x y hx hy
    simp only [normalizeMaterial, hx, Option.map_some', Option.some_inj] at hy
    subst hy
    split
    · norm_num
    · next h => exact le_of_not_lt h
  · intro x hx
    simp [normalizeMaterial, hx]
  · intro x y hx hy
    simp only [normalizeMaterial, hx, Option.map_some', Option.some_inj] at hy
    subst hy
    split
    · norm_num
    · next h => exact le_of_not_lt h

/-- C2 witness: evaluating the amended normalization facts on the
concrete counterexample material. -/
theorem normalizeMaterial_spec_witness :
    (normalizeMaterial false cexMaterial).opacity = 9/10
    ∧ (normalizeMaterial false cexMaterial).metalness
        = some (if (9:ℚ)/10 < 4/5 then 3/5 else 4/5) :=
  ⟨(normalizeMaterial_spec false cexMaterial).1,
   (normalizeMaterial_spec false cexMaterial).2.2.2.1 (4/5) rfl⟩

/-! ## three.js vector operations used by the viewer -/

/-- A three.js Vector3 with real-number components. -/
structure Vec3 where
  x : ℝ
  y : ℝ
  z : ℝ

theorem Vec3.ext_iff {a b : Vec3} : a = b ↔ a.x = b.x ∧ a.y = b.y ∧ a.z = b.z := by
  cases a; cases b; simp

/-- Componentwise addition (`Vector3.add`). -/
def Vec3.add (a b : Vec3) : Vec3 := ⟨a.x + b.x, a.y + b.y, a.z + b.z⟩

/-- Componentwise subtraction (`Vector3.sub`). -/
def Vec3.sub (a b : Vec3) : Vec3 := ⟨a.x - b.x, a.y - b.y, a.z - b.z⟩

/-- Scalar multiplication (`Vector3.multiplyScalar`). -/
def Vec3.multiplyScalar (a : Vec3) (t : ℝ) : Vec3 := ⟨a.x * t, a.y * t, a.z * t⟩

/-- Scalar division (`Vector3.divideScalar`). -/
noncomputable def Vec3.divideScalar (a : Vec3) (t : ℝ) : Vec3 := ⟨a.x / t, a.y / t, a.z / t⟩

/-- Dot product (`Vector3.dot`). -/
def Vec3.dot (a b : Vec3) : ℝ := a.x * b.x + a.y * b.y + a.z * b.z

/-- Squared length (`Vector3.lengthSq`). -/
def Vec3.lengthSq (a : Vec3) : ℝ := a.x * a.x + a.y * a.y + a.z * a.z

/-- Distance between two points (`Vector3.distanceTo`). -/
noncomputable def Vec3.distanceTo (a b : Vec3) : ℝ := Real.sqrt ((a.sub b).lengthSq)

/-- Linear interpolation (`Vector3.lerp`):
`this.x += (v.x - this.x) * alpha` componentwise. -/
def Vec3.lerp (a b : Vec3) (alpha : ℝ) : Vec3 :=
  ⟨a.x + (b.x - a.x) * alpha, a.y + (b.y - a.y) * alpha, a.z + (b.z - a.z) * alpha⟩

/-- Real.sqrt of a recognized perfect square. -/
theorem sqrt_of_sq {x r : ℝ} (hr : 0 ≤ r) (h : r ^ 2 = x) : Real.sqrt x = r := by
  rw [← h, Real.sqrt_sq hr]

theorem Vec3.distanceTo_nonneg (a b : Vec3) : 0 ≤ a.distanceTo b :=
  Real.sqrt_nonneg _

theorem Vec3.lengthSq_multiplyScalar (a : Vec3) (t : ℝ) :
    (a.multiplyScalar t).lengthSq = t ^ 2 * a.lengthSq := by
  simp only [Vec3.multiplyScalar, Vec3.lengthSq]
  ring

/-! ## ThreeCanvas.jsx : explode interpolation (ExplodeController) -/

/-- Embeds `const baseScale = modelSize.current > 0 ? modelSize.current : 350`. -/
noncomputable def explodeBaseScale (modelSize : ℝ) : ℝ :=
  if 0 < modelSize then modelSize else 350

/-- Per-tick interpolation target of a mesh inside the explode
`useFrame` callback: `originalPos + direction * expandDist` with
`expandDist = explodeMode ? baseScale * 0.5 : 0`. -/
noncomputable def explodeTargetPos (explodeMode : Bool) (modelSize : ℝ)
    (originalPos direction : Vec3) : Vec3 :=
  originalPos.add
    (direction.multiplyScalar (if explodeMode then explodeBaseScale modelSize * (1/2) else 0))

/-- One explode animation tick: `child.position.lerp(targetPos, 0.1)`. -/
noncomputable def explodeTick (explodeMode : Bool) (modelSize : ℝ)
    (originalPos direction pos : Vec3) : Vec3 :=
  pos.lerp (explodeTargetPos explodeMode modelSize originalPos direction) (1/10)

theorem explodeTargetPos_off (modelSize : ℝ) (originalPos direction : Vec3) :
    explodeTargetPos false modelSize originalPos direction = originalPos := by
  simp only [explodeTargetPos, Bool.false_eq_true, if_false, Vec3.multiplyScalar, Vec3.add,
    Vec3.ext_iff]
  refine ⟨?_, ?_, ?_⟩ <;> ring

theorem distanceTo_lerp_tenth (p t : Vec3) :
    (p.lerp t (1/10)).distanceTo t = (9/10) * p.distanceTo t := by
  have hsub : (p.lerp t (1/10)).sub t = (p.sub t).multiplyScalar (9/10) := by
    simp only [Vec3.lerp, Vec3.sub, Vec3.multiplyScalar, Vec3.ext_iff]
    refine ⟨?_, ?_, ?_⟩ <;> ring
  simp only [Vec3.distanceTo, hsub, Vec3.lengthSq_multiplyScalar]
  rw [Real.sqrt_mul (by positivity) _, sqrt_of_sq (by norm_num : (0:ℝ) ≤ 9/10) rfl]

/-! ## Claim C5 : explode off returns every mesh to its baseline -/

/-- C5: with the explode flag off the interpolation target is exactly the
stored baseline position; each tick multiplies the distance to the
baseline by 0.9; and iterating the tick drives that distance below any
positive epsilon. -/
theorem explode_off_converges_to_baseline (modelSize : ℝ)
    (originalPos direction pos : Vec3) :
    explodeTargetPos false modelSize originalPos direction = originalPos
    ∧ (∀ p : Vec3,
        (explodeTick false modelSize originalPos direction p).distanceTo originalPos
          = (9/10) * p.distanceTo originalPos)
    ∧ (∀ ε : ℝ, 0 < ε → ∃ n : ℕ,
        ((fun p => explodeTick false modelSize originalPos direction p)^[n] pos).distanceTo
          originalPos < ε) := by
  have htgt := explodeTargetPos_off modelSize originalPos direction
  have hstep : ∀ p : Vec3,
      (explodeTick false modelSize originalPos direction p).distanceTo originalPos
        = (9/10) * p.distanceTo originalPos := by
    intro p
    unfold explodeTick
    rw [htgt, distanceTo_lerp_tenth]
  refine ⟨htgt, hstep, ?_⟩
  have hiter : ∀ n : ℕ,
      ((fun p => explodeTick false modelSize originalPos direction p)^[n] pos).distanceTo
        originalPos = (9/10) ^ n * pos.distanceTo originalPos := by
    intro n
    induction n with
    | zero => simp
    | succ k ih =>
      rw [Function.iterate_succ_apply', hstep, ih, pow_succ]
      ring
  intro ε hε
  rcases eq_or_lt_of_le (Vec3.distanceTo_nonneg pos originalPos) with hd | hd
  · exact ⟨0, by rw [hiter 0]; rw [← hd]; simpa using hε⟩
  · obtain ⟨n, hn⟩ := exists_pow_lt_of_lt_one (div_pos hε hd) (by norm_num : (9:ℝ)/10 < 1)
    refine ⟨n, ?_⟩
    rw [hiter n]
    calc (9/10 : ℝ) ^ n * pos.distanceTo originalPos
        < (ε / pos.distanceTo originalPos) * pos.distanceTo originalPos := by
          exact mul_lt_mul_of_pos_right hn hd
      _ = ε := div_mul_cancel₀ ε (ne_of_gt hd)

/-- C5 witness: for a concrete mesh one tick with the flag off lands
within 0.95 of the baseline, and some iterate falls below 1/2. -/
theorem explode_off_converges_witness :
    (explodeTick false 10 ⟨0, 0, 0⟩ ⟨0, 1, 0⟩ ⟨1, 0, 0⟩).distanceTo ⟨0, 0, 0⟩
      = (9/10) * Vec3.distanceTo ⟨1, 0, 0⟩ ⟨0, 0, 0⟩
    ∧ ∃ n : ℕ,
        ((fun p => explodeTick false 10 ⟨0, 0, 0⟩ ⟨0, 1, 0⟩ p)^[n] ⟨1, 0, 0⟩).distanceTo
          ⟨0, 0, 0⟩ < 1/2 :=
  ⟨(explode_off_converges_to_baseline 10 ⟨0, 0, 0⟩ ⟨0, 1, 0⟩ ⟨1, 0, 0⟩).2.1 ⟨1, 0, 0⟩,
   (explode_off_converges_to_baseline 10 ⟨0, 0, 0⟩ ⟨0, 1, 0⟩ ⟨1, 0, 0⟩).2.2 (1/2)
     (by norm_num)⟩

/-! ## MeasurementMarkers : diameter label from 3 points -/

/-- Heron area as computed in MeasurementMarkers:
`s = (a+b+c)/2; area = sqrt(s(s−a)(s−b)(s−c))`. -/
noncomputable def heronArea (a b c : ℝ) : ℝ :=
  let s := (a + b + c) / 2
  Real.sqrt (s * (s - a) * (s - b) * (s - c))

/-- Embeds the 3-point branch of the label computation in
MeasurementMarkers: pairwise distances of the three stored points, Heron
area, and — only when the area exceeds 0.0001 — a label at the centroid
carrying the circumdiameter `2R` with `R = (a·b·c)/(4·area)`. -/
noncomputable def diameterLabel (p1 p2 p3 : Vec3) : Option (Vec3 × ℝ) :=
  let a := p1.distanceTo p2
  let b := p2.distanceTo p3
  let c := p3.distanceTo p1
  let area := heronArea a b c
  if 1/10000 < area then
    some (((p1.add p2).add p3).divideScalar 3, (a * b * c / (4 * area)) * 2)
  else
    none

theorem dist_000_300 : (⟨0, 0, 0⟩ : Vec3).distanceTo ⟨3, 0, 0⟩ = 3 := by
  unfold Vec3.distanceTo
  exact sqrt_of_sq (by norm_num) (by simp [Vec3.sub, Vec3.lengthSq]; norm_num)

theorem dist_300_040 : (⟨3, 0, 0⟩ : Vec3).distanceTo ⟨0, 4, 0⟩ = 5 := by
  unfold Vec3.distanceTo
  exact sqrt_of_sq (by norm_num) (by simp [Vec3.sub, Vec3.lengthSq]; norm_num)

theorem dist_040_000 : (⟨0, 4, 0⟩ : Vec3).distanceTo ⟨0, 0, 0⟩ = 4 := by
  unfold Vec3.distanceTo
  exact sqrt_of_sq (by norm_num) (by simp [Vec3.sub, Vec3.lengthSq]; norm_num)

theorem dist_300_600 : (⟨3, 0, 0⟩ : Vec3).distanceTo ⟨6, 0, 0⟩ = 3 := by
  unfold Vec3.distanceTo
  exact sqrt_of_sq (by norm_num) (by simp [Vec3.sub, Vec3.lengthSq]; norm_num)

theorem dist_600_000 : (⟨6, 0, 0⟩ : Vec3).distanceTo ⟨0, 0, 0⟩ = 6 := by
  unfold Vec3.distanceTo
  exact sqrt_of_sq (by norm_num) (by simp [Vec3.sub, Vec3.lengthSq]; norm_num)

theorem heron_3_5_4 : heronArea 3 5 4 = 6 := by
  unfold heronArea
  exact sqrt_of_sq (by norm_num) (by norm_num)

theorem heron_3_3_6 : heronArea 3 3 6 = 0 := by
  unfold heronArea
  exact sqrt_of_sq le_rfl (by norm_num)

/-! ## Claim C4 : diameter label for 3 stored points -/

/-- C4: with three stored points the diameter label exists exactly when
the Heron area of the triangle exceeds the epsilon 0.0001, in which case
it shows `2·(a·b·c)/(4·Area)` at the centroid; the right triangle
(0,0,0), (3,0,0), (0,4,0) gets diameter 5 at centroid (1, 4/3, 0), and
the collinear points (0,0,0), (3,0,0), (6,0,0) get no diameter label. -/
theorem diameter_label_spec :
    (∀ p1 p2 p3 : Vec3, (diameterLabel p1 p2 p3).isSome ↔
        1/10000 < heronArea (p1.distanceTo p2) (p2.distanceTo p3) (p3.distanceTo p1))
    ∧ (∀ p1 p2 p3 : Vec3,
        1/10000 < heronArea (p1.distanceTo p2) (p2.distanceTo p3) (p3.distanceTo p1) →
        diameterLabel p1 p2 p3 = some (((p1.add p2).add p3).divideScalar 3,
          (p1.distanceTo p2 * p2.distanceTo p3 * p3.distanceTo p1
            / (4 * heronArea (p1.distanceTo p2) (p2.distanceTo p3) (p3.distanceTo p1))) * 2))
    ∧ diameterLabel ⟨0, 0, 0⟩ ⟨3, 0, 0⟩ ⟨0, 4, 0⟩ = some (⟨1, 4/3, 0⟩, 5)
    ∧ diameterLabel ⟨0, 0, 0⟩ ⟨3, 0, 0⟩ ⟨6, 0, 0⟩ = none := by
  refine ⟨?_, ?_, ?_, ?_⟩
  · intro p1 p2 p3
    simp only [diameterLabel]
    split
    · next h => simpa using h
    · next h => simpa using h
  · intro p1 p2 p3 h
    simp only [diameterLabel]
    rw [if_pos h]
  · simp only [diameterLabel, dist_000_300, dist_300_040, dist_040_000, heron_3_5_4]
    rw [if_pos (by norm_num)]
    simp only [Vec3.add, Vec3.divideScalar, Option.some_inj, Prod.mk.injEq, Vec3.ext_iff]
    norm_num
  · simp only [diameterLabel, dist_000_300, dist_300_600, dist_600_000, heron_3_3_6]
    rw [if_neg (by norm_num)]

/-- C4 witness: the right-triangle instance discharges the area
hypothesis of the conditional part of the claim. -/
theorem diameter_label_spec_witness :
    diameterLabel ⟨0, 0, 0⟩ ⟨3, 0, 0⟩ ⟨0, 4, 0⟩
      = some ((((⟨0, 0, 0⟩ : Vec3).add ⟨3, 0, 0⟩).add ⟨0, 4, 0⟩).divideScalar 3,
          ((⟨0, 0, 0⟩ : Vec3).distanceTo ⟨3, 0, 0⟩
            * (⟨3, 0, 0⟩ : Vec3).distanceTo ⟨0, 4, 0⟩
            * (⟨0, 4, 0⟩ : Vec3).distanceTo ⟨0, 0, 0⟩
            / (4 * heronArea ((⟨0, 0, 0⟩ : Vec3).distanceTo ⟨3, 0, 0⟩)
                ((⟨3, 0, 0⟩ : Vec3).distanceTo ⟨0, 4, 0⟩)
                ((⟨0, 4, 0⟩ : Vec3).distanceTo ⟨0, 0, 0⟩))) * 2) :=
  diameter_label_spec.2.1 ⟨0, 0, 0⟩ ⟨3, 0, 0⟩ ⟨0, 4, 0⟩
    (by rw [dist_000_300, dist_300_040, dist_040_000, heron_3_5_4]; norm_num)

/-! ## ThreeCanvas.jsx : snapToFeature (FeatureSnapper) -/

/-- Snap threshold from snapToFeature:
`const threshold = cam.position.distanceTo(point) * 0.02`. -/
noncomputable def snapThreshold (camPos point : Vec3) : ℝ :=
  camPos.distanceTo point * (2/100)

/-- Accumulator of the vertex/edge scan in snapToFeature: the running
closest candidate and its distance; `⊤` models the initial JS
`Infinity`. -/
structure SnapState where
  closestPoint : Vec3
  minMsgDist : WithTop ℝ

/-- One iteration of the vertex loop: take the vertex whenever its
distance to the hit point is strictly smaller than the running minimum. -/
noncomputable def vertStep (point : Vec3) (s : SnapState) (v : Vec3) : SnapState :=
  if (v.distanceTo point : WithTop ℝ) < s.minMsgDist then
    ⟨v, (v.distanceTo point : WithTop ℝ)⟩
  else s

/-- Embeds `THREE.Line3.closestPointToPoint` with clamping: the
point-to-segment projection parameter clamped into `[0,1]`. -/
noncomputable def closestPointOnSegment (v1 v2 p : Vec3) : Vec3 :=
  let startEnd := v2.sub v1
  let startP := p.sub v1
  let t := startP.dot startEnd / startEnd.dot startEnd
  let tc := max 0 (min 1 t)
  v1.add (startEnd.multiplyScalar tc)

/-- One iteration of the edge loop: the clamped closest point on the edge
wins only when its distance beats the running minimum by more than 10%
(`d < minMsgDist * 0.9`, the vertex-preference bias). -/
noncomputable def edgeStep (point : Vec3) (s : SnapState) (e : Vec3 × Vec3) : SnapState :=
  let c := closestPointOnSegment e.1 e.2 point
  if (c.distanceTo point : WithTop ℝ) < s.minMsgDist * ((9/10 : ℝ) : WithTop ℝ) then
    ⟨c, (c.distanceTo point : WithTop ℝ)⟩
  else s

/-- Embeds snapToFeature (ThreeCanvas.jsx): scan the hit triangle's three
world-space vertices, then its three edges, and return the winning
candidate only when its distance is below the threshold — otherwise the
raw hit point unchanged. -/
noncomputable def snapToFeature (camPos point vA vB vC : Vec3) : Vec3 :=
  let threshold := snapThreshold camPos point
  let s1 := [vA, vB, vC].foldl (vertStep point) ⟨point, ⊤⟩
  let s2 := [(vA, vB), (vB, vC), (vC, vA)].foldl (edgeStep point) s1
  if s2.minMsgDist < (threshold : WithTop ℝ) then s2.closestPoint else point

/-- The candidate features snapToFeature considers: the three vertices
and the clamped closest point on each of the three edges. -/
noncomputable def snapCandidates (point vA vB vC : Vec3) : List Vec3 :=
  [vA, vB, vC,
   closestPointOnSegment vA vB point,
   closestPointOnSegment vB vC point,
   closestPointOnSegment vC vA point]

theorem vertStep_min_ge {T : ℝ} {point : Vec3} {s : SnapState} {v : Vec3}
    (hs : (T : WithTop ℝ) ≤ s.minMsgDist) (hv : T ≤ v.distanceTo point) :
    (T : WithTop ℝ) ≤ (vertStep point s v).minMsgDist := by
  unfold vertStep
  split
  · show (T : WithTop ℝ) ≤ ((v.distanceTo point : ℝ) : WithTop ℝ)
    exact_mod_cast hv
  · exact hs

theorem edgeStep_min_ge {T : ℝ} {point : Vec3} {s : SnapState} {e : Vec3 × Vec3}
    (hs : (T : WithTop ℝ) ≤ s.minMsgDist)
    (he : T ≤ (closestPointOnSegment e.1 e.2 point).distanceTo point) :
    (T : WithTop ℝ) ≤ (edgeStep point s e).minMsgDist := by
  simp only [edgeStep]
  split
  · show (T : WithTop ℝ)
        ≤ (((closestPointOnSegment e.1 e.2 point).distanceTo point : ℝ) : WithTop ℝ)
    exact_mod_cast he
  · exact hs

/-! ## Claim C6 : snap threshold scaling and out-of-threshold behavior -/

/-- C6: the snap threshold is exactly 2% of the camera-to-hit-point
distance, so doubling that distance doubles the threshold; and when every
candidate vertex/edge feature lies at or beyond the threshold,
snapToFeature returns the raw hit point unchanged. -/
theorem snap_threshold_spec :
    (∀ camPos point : Vec3, snapThreshold camPos point = 2/100 * camPos.distanceTo point)
    ∧ (∀ camPos camPos2 point : Vec3,
        camPos2.distanceTo point = 2 * camPos.distanceTo point →
        snapThreshold camPos2 point = 2 * snapThreshold camPos point)
    ∧ (∀ camPos point vA vB vC : Vec3,
        (∀ c ∈ snapCandidates point vA vB vC,
          snapThreshold camPos point ≤ c.distanceTo point) →
        snapToFeature camPos point vA vB vC = point) := by
  refine ⟨?_, ?_, ?_⟩
  · intro camPos point
    unfold snapThreshold
    ring
  · intro camPos camPos2 point h
    unfold snapThreshold
    rw [h]
    ring
  · intro camPos point vA vB vC h
    have hA := h vA (by simp [snapCandidates])
    have hB := h vB (by simp [snapCandidates])
    have hC := h vC (by simp [snapCandidates])
    have hAB := h (closestPointOnSegment vA vB point) (by simp [snapCandidates])
    have hBC := h (closestPointOnSegment vB vC point) (by simp [snapCandidates])
    have hCA := h (closestPointOnSegment vC vA point) (by simp [snapCandidates])
    have hmin : ((snapThreshold camPos point : ℝ) : WithTop ℝ)
        ≤ (List.foldl (edgeStep point)
            (List.foldl (vertStep point) ⟨point, ⊤⟩ [vA, vB, vC])
            [(vA, vB), (vB, vC), (vC, vA)]).minMsgDist := by
      simp only [List.foldl_cons, List.foldl_nil]
      exact edgeStep_min_ge (edgeStep_min_ge (edgeStep_min_ge
        (vertStep_min_ge (vertStep_min_ge (vertStep_min_ge le_top hA) hB) hC) hAB) hBC) hCA
    simp only [snapToFeature]
    rw [if_neg (not_lt.mpr hmin)]

theorem dist_cam100 : (⟨0, 0, 100⟩ : Vec3).distanceTo ⟨0, 0, 0⟩ = 100 := by
  unfold Vec3.distanceTo
  exact sqrt_of_sq (by norm_num) (by simp [Vec3.sub, Vec3.lengthSq]; norm_num)

theorem dist_cam200 : (⟨0, 0, 200⟩ : Vec3).distanceTo ⟨0, 0, 0⟩ = 200 := by
  unfold Vec3.distanceTo
  exact sqrt_of_sq (by norm_num) (by simp [Vec3.sub, Vec3.lengthSq]; norm_num)

theorem seg_mid_5_5_0 :
    closestPointOnSegment ⟨10, 0, 0⟩ ⟨0, 10, 0⟩ ⟨0, 0, 0⟩ = ⟨5, 5, 0⟩ := by
  simp only [closestPointOnSegment, Vec3.sub, Vec3.dot, Vec3.add, Vec3.multiplyScalar,
    Vec3.ext_iff]
  norm_num

theorem seg_mid_0_5_5 :
    closestPointOnSegment ⟨0, 10, 0⟩ ⟨0, 0, 10⟩ ⟨0, 0, 0⟩ = ⟨0, 5, 5⟩ := by
  simp only [closestPointOnSegment, Vec3.sub, Vec3.dot, Vec3.add, Vec3.multiplyScalar,
    Vec3.ext_iff]
  norm_num

theorem seg_mid_5_0_5 :
    closestPointOnSegment ⟨0, 0, 10⟩ ⟨10, 0, 0⟩ ⟨0, 0, 0⟩ = ⟨5, 0, 5⟩ := by
  simp only [closestPointOnSegment, Vec3.sub, Vec3.dot, Vec3.add, Vec3.multiplyScalar,
    Vec3.ext_iff]
  norm_num

theorem two_le_dist_concrete {v : Vec3} (h : 4 ≤ (v.sub ⟨0, 0, 0⟩).lengthSq) :
    2 ≤ v.distanceTo ⟨0, 0, 0⟩ := by
  unfold Vec3.distanceTo
  have h2 : Real.sqrt 4 ≤ Real.sqrt ((v.sub ⟨0, 0, 0⟩).lengthSq) := Real.sqrt_le_sqrt h
  rwa [sqrt_of_sq (by norm_num : (0:ℝ) ≤ 2) (by norm_num)] at h2

/-- C6 witness: with the camera 100 units from the hit point the
threshold is 2; every candidate of the concrete triangle is at least 2
away, so the raw point is returned; and moving the camera to distance 200
doubles the threshold. -/
theorem snap_threshold_spec_witness :
    snapToFeature ⟨0, 0, 100⟩ ⟨0, 0, 0⟩ ⟨10, 0, 0⟩ ⟨0, 10, 0⟩ ⟨0, 0, 10⟩ = ⟨0, 0, 0⟩
    ∧ snapThreshold ⟨0, 0, 200⟩ ⟨0, 0, 0⟩ = 2 * snapThreshold ⟨0, 0, 100⟩ ⟨0, 0, 0⟩ := by
  have hthr : snapThreshold ⟨0, 0, 100⟩ ⟨0, 0, 0⟩ = 2 := by
    unfold snapThreshold
    rw [dist_cam100]
    norm_num
  refine ⟨snap_threshold_spec.2.2 _ _ _ _ _ ?_,
    snap_threshold_spec.2.1 _ _ _ (by rw [dist_cam100, dist_cam200]; norm_num)⟩
  intro c hc
  rw [hthr]
  simp only [snapCandidates, seg_mid_5_5_0, seg_mid_0_5_5, seg_mid_5_0_5, List.mem_cons,
    List.not_mem_nil, or_false] at hc
  rcases hc with rfl | rfl | rfl | rfl | rfl | rfl <;>
    exact two_le_dist_concrete (by simp [Vec3.sub, Vec3.lengthSq]; norm_num)

/-! ## ThreeCanvas.jsx : canonical views and initial framing
(CameraViewController) -/

/-- A three.js quaternion. -/
structure Quat where
  x : ℝ
  y : ℝ
  z : ℝ
  w : ℝ

/-- Embeds `THREE.Vector3.applyQuaternion` (the sandwich product written
out as in the three.js source). -/
def applyQuaternion (v : Vec3) (q : Quat) : Vec3 :=
  let tx := 2 * (q.y * v.z - q.z * v.y)
  let ty := 2 * (q.z * v.x - q.x * v.z)
  let tz := 2 * (q.x * v.y - q.y * v.x)
  ⟨v.x + q.w * tx + q.y * tz - q.z * ty,
   v.y + q.w * ty + q.z * tx - q.x * tz,
   v.z + q.w * tz + q.x * ty - q.y * tx⟩

/-- The identity quaternion (`new THREE.Quaternion()`), the model
orientation used when no model is loaded or the model is unrotated. -/
def identityQuat : Quat := ⟨0, 0, 0, 1⟩

/-- A quaternion of unit norm, as produced by three.js rotations. -/
def Quat.IsUnit (q : Quat) : Prop := q.x ^ 2 + q.y ^ 2 + q.z ^ 2 + q.w ^ 2 = 1

/-- The six canonical view names handled by handleViewChange. -/
inductive ViewName where
  | front
  | back
  | left
  | right
  | top
  | bottom
  deriving Repr, DecidableEq

/-- Canonical local offset direction per view; top and bottom carry a
0.0001 z-component to avoid the pole singularity. -/
noncomputable def viewOffset : ViewName → Vec3
  | ViewName.front => ⟨0, 0, 1⟩
  | ViewName.back => ⟨0, 0, -1⟩
  | ViewName.left => ⟨-1, 0, 0⟩
  | ViewName.right => ⟨1, 0, 0⟩
  | ViewName.top => ⟨0, 1, 1/10000⟩
  | ViewName.bottom => ⟨0, -1, 1/10000⟩

/-- Embeds `(size / 2) / Math.tan(fov / 2)`.  The tangent of the half
field-of-view is passed in as a value, treating Math.tan as an oracle. -/
noncomputable def fitDistance (size tanHalfFov : ℝ) : ℝ := size / 2 / tanHalfFov

/-- Camera position computed by handleViewChange: the canonical offset of
the requested view rotated by the model quaternion, scaled by
fitDistance × 1.5, added to the orbit target. -/
noncomputable def handleViewChangePos (modelQuat : Quat) (target : Vec3)
    (size tanHalfFov : ℝ) (view : ViewName) : Vec3 :=
  target.add ((applyQuaternion (viewOffset view) modelQuat).multiplyScalar
    (fitDistance size tanHalfFov * (3/2)))

/-- Camera z-coordinate set by handleModelReady in
components/ThreeCanvas.jsx: fit distance times the padding multiplier,
which is 1.5 — except that revision multiplies by 1.5 × 0.75 when the
model URL contains V3_DIRT_BIKE_3 (`urlIncludesDirtBike`); the newer
ThreeCanvas revision has that branch commented out. -/
noncomputable def handleModelReadyZ (urlIncludesDirtBike : Bool)
    (maxDim tanHalfFov : ℝ) : ℝ :=
  fitDistance maxDim tanHalfFov * (if urlIncludesDirtBike then (3/2) * (3/4) else 3/2)

/-- Rotation by a unit quaternion preserves the squared length. -/
theorem lengthSq_applyQuaternion {q : Quat} (hq : q.IsUnit) (v : Vec3) :
    (applyQuaternion v q).lengthSq = v.lengthSq := by
  simp only [applyQuaternion, Vec3.lengthSq]
  unfold Quat.IsUnit at hq
  linear_combination
    (4 * ((q.x ^ 2 + q.y ^ 2 + q.z ^ 2) * (v.x ^ 2 + v.y ^ 2 + v.z ^ 2)
      - (q.x * v.x + q.y * v.y + q.z * v.z) ^ 2)) * hq

theorem distanceTo_add_offset (target w : Vec3) :
    (target.add w).distanceTo target = Real.sqrt w.lengthSq := by
  have h : (target.add w).sub target = w := by
    simp only [Vec3.add, Vec3.sub, Vec3.ext_iff]
    refine ⟨?_, ?_, ?_⟩ <;> ring
  rw [Vec3.distanceTo, h]

/-! ## Claim C3 : fit-distance formula for canonical views and framing -/

/-- C3 counterexample: with the default dirt-bike URL the initial framing
in components/ThreeCanvas.jsx multiplies the fit distance by 1.5 × 0.75 =
1.125, not by 1.5; at maxDimension 10 and tan(fov/2) = 1 the camera is
placed at z = 5.625 while the claimed formula gives 7.5. -/
theorem initial_framing_padding_cex :
    handleModelReadyZ true 10 1 = 45/8
    ∧ fitDistance 10 1 * (3/2) = 15/2
    ∧ (45/8 : ℝ) ≠ 15/2 := by
  norm_num [handleModelReadyZ, fitDistance]

/-- C3 (amended): every canonical view request places the camera at
target + (model-rotated offset) × (fitDistance × 1.5); for the four side
views and a unit model quaternion the distance from the target is exactly
fitDistance × 1.5; a front request on an unrotated model with
maxDimension 10 and tan(25°) ∈ [0.4663, 0.46631] puts the camera at
target + (0, 0, z) with |z − 16.07| < 0.02; initial framing uses the same
fitDistance × 1.5 except for the dirt-bike URL in the
components/ThreeCanvas.jsx revision, where the multiplier is 1.125. -/
theorem cameraView_fit_formula :
    (∀ (q : Quat) (target : Vec3) (size t : ℝ) (view : ViewName),
        handleViewChangePos q target size t view
          = target.add ((applyQuaternion (viewOffset view) q).multiplyScalar
              (size / 2 / t * (3/2))))
    ∧ (∀ (q : Quat) (target : Vec3) (size t : ℝ) (view : ViewName),
        q.IsUnit → 0 ≤ size / 2 / t →
        (view = ViewName.front ∨ view = ViewName.back ∨ view = ViewName.left ∨
          view = ViewName.right) →
        (handleViewChangePos q target size t view).distanceTo target
          = size / 2 / t * (3/2))
    ∧ (∀ (target : Vec3) (t : ℝ), 4663/10000 ≤ t → t ≤ 46631/100000 →
        ∃ zoff : ℝ,
          handleViewChangePos identityQuat target 10 t ViewName.front
              = target.add ⟨0, 0, zoff⟩
            ∧ |zoff - 1607/100| < 2/100)
    ∧ (∀ (maxDim t : ℝ),
        handleModelReadyZ false maxDim t = fitDistance maxDim t * (3/2)
        ∧ handleModelReadyZ true maxDim t = fitDistance maxDim t * ((3/2) * (3/4))) := by
  refine ⟨?_, ?_, ?_, ?_⟩
  · intro q target size t view
    rfl
  · intro q target size t view hq ht hv
    have hlen : (viewOffset view).lengthSq = 1 := by
      rcases hv with rfl | rfl | rfl | rfl <;> norm_num [viewOffset, Vec3.lengthSq]
    rw [handleViewChangePos, distanceTo_add_offset, Vec3.lengthSq_multiplyScalar,
      lengthSq_applyQuaternion hq, hlen, mul_one]
    exact sqrt_of_sq (by positivity) rfl
  · intro target t h1 h2
    have ht0 : (0:ℝ) < t := lt_of_lt_of_le (by norm_num) h1
    refine ⟨10 / 2 / t * (3/2), ?_, ?_⟩
    · simp only [handleViewChangePos, fitDistance, applyQuaternion, identityQuat, viewOffset,
        Vec3.multiplyScalar, Vec3.add, Vec3.ext_iff]
      norm_num
    · have hu : 10 / 2 / t ≤ 10 / 2 / (4663/10000) :=
        div_le_div_of_nonneg_left (by norm_num) (by norm_num) h1
      have hl : 10 / 2 / (46631/100000) ≤ 10 / 2 / t :=
        div_le_div_of_nonneg_left (by norm_num) ht0 h2
      rw [abs_sub_lt_iff]
      constructor
      · nlinarith
      · nlinarith
  · intro maxDim t
    constructor
    · simp [handleModelReadyZ]
    · simp [handleModelReadyZ]

/-- C3 witness: the amended formula evaluated for a front request with a
unit quaternion and tan(fov/2) = 1/2, and the ≈16.07 instance at
tan(25°) ≈ 0.46631. -/
theorem cameraView_fit_formula_witness :
    (handleViewChangePos identityQuat ⟨0, 0, 0⟩ 10 (1/2) ViewName.front).distanceTo ⟨0, 0, 0⟩
      = 10 / 2 / (1/2) * (3/2)
    ∧ ∃ zoff : ℝ,
        handleViewChangePos identityQuat ⟨0, 0, 0⟩ 10 (46630766/100000000) ViewName.front
            = Vec3.add ⟨0, 0, 0⟩ ⟨0, 0, zoff⟩
          ∧ |zoff - 1607/100| < 2/100 :=
  ⟨cameraView_fit_formula.2.1 identityQuat ⟨0, 0, 0⟩ 10 (1/2) ViewName.front
      (by norm_num [Quat.IsUnit, identityQuat]) (by norm_num) (Or.inl rfl),
   cameraView_fit_formula.2.2.1 ⟨0, 0, 0⟩ (46630766/100000000) (by norm_num) (by norm_num)⟩

/-! ## OrientationCube drag : spherical orbit of the camera
(OrientationCubeSync) -/

/-- Spherical coordinates as in `THREE.Spherical` (radius, polar angle
phi, azimuth theta). -/
structure Spherical where
  radius : ℝ
  phi : ℝ
  theta : ℝ

/-- Embeds `Math.atan2` piecewise through `Real.arctan`. -/
noncomputable def atan2 (y x : ℝ) : ℝ :=
  if 0 < x then Real.arctan (y / x)
  else if x < 0 then
    (if 0 ≤ y then Real.arctan (y / x) + Real.pi else Real.arctan (y / x) - Real.pi)
  else (if 0 < y then Real.pi / 2 else if y < 0 then -(Real.pi / 2) else 0)

/-- Embeds `THREE.Spherical.setFromVector3`: radius is the vector length;
for a nonzero radius, theta = atan2(x, z) and
phi = acos(clamp(y / radius, −1, 1)); a zero radius yields zero angles. -/
noncomputable def sphericalFromVec (v : Vec3) : Spherical :=
  let radius := Real.sqrt v.lengthSq
  if radius = 0 then ⟨0, 0, 0⟩
  else ⟨radius, Real.arccos (max (-1) (min 1 (v.y / radius))), atan2 v.x v.z⟩

/-- Embeds `THREE.Vector3.setFromSphericalCoords`. -/
noncomputable def vecFromSpherical (radius phi theta : ℝ) : Vec3 :=
  let sinPhiRadius := Real.sin phi * radius
  ⟨sinPhiRadius * Real.sin theta, Real.cos phi * radius, sinPhiRadius * Real.cos theta⟩

/-- Embeds handleCubeDrag (cube-drag orbit handler of the newest
ThreeCanvas revision): decompose the camera offset from the orbit target
into spherical coordinates, subtract dx·0.01 from the azimuth and dy·0.01
from the polar angle, clamp the polar angle into [0.01, π − 0.01],
recompose, and re-place the camera about the unchanged target. -/
noncomputable def handleCubeDrag (camPos target : Vec3) (dx dy : ℝ) : Vec3 :=
  let offset := camPos.sub target
  let s := sphericalFromVec offset
  let theta2 := s.theta - dx * (1/100)
  let phi2 := s.phi - dy * (1/100)
  let phiClamped := max (1/100) (min (Real.pi - 1/100) phi2)
  target.add (vecFromSpherical s.radius phiClamped theta2)

theorem lengthSq_vecFromSpherical (r phi theta : ℝ) :
    (vecFromSpherical r phi theta).lengthSq = r ^ 2 := by
  simp only [vecFromSpherical, Vec3.lengthSq]
  have hs := Real.sin_sq_add_cos_sq theta
  have hp := Real.sin_sq_add_cos_sq phi
  linear_combination (r ^ 2 * Real.sin phi ^ 2) * hs + r ^ 2 * hp

theorem sphericalFromVec_radius (v : Vec3) :
    (sphericalFromVec v).radius = Real.sqrt v.lengthSq := by
  simp only [sphericalFromVec]
  split
  · next h => simp [h.symm]
  · rfl

/-! ## Claim C9 : cube drag orbits the camera in spherical coordinates -/

/-- C9: dragging the orientation cube re-places the camera at the orbit
target plus the spherical recomposition of its previous offset with
azimuth decreased by dx·0.01 and polar angle decreased by dy·0.01 then
clamped into [0.01, π − 0.01] (strictly inside the poles), and the
distance from camera to target is preserved by the adjustment. -/
theorem cube_drag_spherical_orbit (camPos target : Vec3) (dx dy : ℝ) :
    handleCubeDrag camPos target dx dy
      = target.add (vecFromSpherical (sphericalFromVec (camPos.sub target)).radius
          (max (1/100) (min (Real.pi - 1/100)
            ((sphericalFromVec (camPos.sub target)).phi - dy * (1/100))))
          ((sphericalFromVec (camPos.sub target)).theta - dx * (1/100)))
    ∧ 1/100 ≤ max (1/100) (min (Real.pi - 1/100)
          ((sphericalFromVec (camPos.sub target)).phi - dy * (1/100)))
    ∧ max (1/100) (min (Real.pi - 1/100)
          ((sphericalFromVec (camPos.sub target)).phi - dy * (1/100))) ≤ Real.pi - 1/100
    ∧ (handleCubeDrag camPos target dx dy).distanceTo target = camPos.distanceTo target := by
  refine ⟨rfl, le_max_left _ _, ?_, ?_⟩
  · have hpi : (1:ℝ)/100 ≤ Real.pi - 1/100 := by
      have := Real.pi_gt_three
      linarith
    exact max_le hpi (min_le_left _ _)
  · rw [handleCubeDrag, distanceTo_add_offset, lengthSq_vecFromSpherical,
      sphericalFromVec_radius]
    rw [sqrt_of_sq (Real.sqrt_nonneg _) rfl]
    rfl

/-! ## Measurement point persistence (MeasurementEngine) -/

/-- The linear part of a three.js world matrix. -/
structure Mat3 where
  m00 : ℝ
  m01 : ℝ
  m02 : ℝ
  m10 : ℝ
  m11 : ℝ
  m12 : ℝ
  m20 : ℝ
  m21 : ℝ
  m22 : ℝ

/-- Matrix-vector product. -/
noncomputable def Mat3.mulVec (M : Mat3) (v : Vec3) : Vec3 :=
  ⟨M.m00 * v.x + M.m01 * v.y + M.m02 * v.z,
   M.m10 * v.x + M.m11 * v.y + M.m12 * v.z,
   M.m20 * v.x + M.m21 * v.y + M.m22 * v.z⟩

/-- The identity matrix. -/
noncomputable def Mat3.id : Mat3 := ⟨1, 0, 0, 0, 1, 0, 0, 0, 1⟩

/-- A node's world placement: the linear part of its world matrix, the
inverse linear part (three.js computes this inverse inside
`worldToLocal`), and the translation. -/
structure Pose where
  linear : Mat3
  linearInv : Mat3
  trans : Vec3

/-- Embeds `Object3D.localToWorld`: apply the node's world matrix. -/
noncomputable def localToWorld (p : Pose) (v : Vec3) : Vec3 :=
  (p.linear.mulVec v).add p.trans

/-- Embeds `Object3D.worldToLocal`: apply the inverse world matrix. -/
noncomputable def worldToLocal (p : Pose) (v : Vec3) : Vec3 :=
  p.linearInv.mulVec (v.sub p.trans)

/-- The stored inverse really inverts the linear part. -/
def Pose.WellFormed (p : Pose) : Prop :=
  (∀ v, p.linearInv.mulVec (p.linear.mulVec v) = v)
  ∧ (∀ v, p.linear.mulVec (p.linearInv.mulVec v) = v)

/-- An identity pose (node placed at the world origin, unrotated). -/
noncomputable def idPose : Pose := ⟨Mat3.id, Mat3.id, ⟨0, 0, 0⟩⟩

theorem idPose_wellFormed : idPose.WellFormed := by
  constructor <;>
    · intro v
      simp only [idPose, Mat3.id, Mat3.mulVec, Vec3.ext_iff]
      refine ⟨?_, ?_, ?_⟩ <;> ring

theorem localToWorld_worldToLocal {p : Pose} (hp : p.WellFormed) (v : Vec3) :
    localToWorld p (worldToLocal p v) = v := by
  unfold localToWorld worldToLocal
  rw [hp.2]
  simp only [Vec3.sub, Vec3.add, Vec3.ext_iff]
  refine ⟨?_, ?_, ?_⟩ <;> ring

/-- A live scene node: stable identity plus current world placement. -/
structure SceneNode where
  uuid : ℕ
  pose : Pose

/-- The raycast hit delivered to handleClick: the world hit point and the
hit object, when any. -/
structure ClickEvent where
  point : Vec3
  object : Option SceneNode

/-- A stored measurement point as pushed by handleClick in the newest
ThreeCanvas revision: the final world point, and the local point and
owner uuid when an object was hit.  The surface-normal component of the
pushed record is not modelled here. -/
structure MeasurePoint where
  point : Vec3
  localPoint : Option Vec3
  objectUuid : Option ℕ

noncomputable instance : DecidableEq Vec3 := fun a b =>
  decidable_of_iff (a.x = b.x ∧ a.y = b.y ∧ a.z = b.z) Vec3.ext_iff.symm

/-- Embeds the measurement path of handleClick (newest ThreeCanvas
revision): capture the raw world point and its local-space conversion for
the hit object, snap, recompute the local point from the snapped point
when snapping moved it, and push the record; nothing is pushed when
measure mode is off.  `snapped` is the value of the snapToFeature call. -/
noncomputable def handleClickStored (measureMode : Bool) (e : ClickEvent)
    (snapped : Vec3) : Option MeasurePoint :=
  let finalPoint := e.point
  let objectUuid := e.object.map SceneNode.uuid
  let localPoint := e.object.map (fun o => worldToLocal o.pose finalPoint)
  if measureMode then
    let updated : Vec3 × Option Vec3 :=
      if snapped = finalPoint then (finalPoint, localPoint)
      else
        match e.object with
        | some o => (snapped, some (worldToLocal o.pose snapped))
        | none => (finalPoint, localPoint)
    some { point := updated.1, localPoint := updated.2, objectUuid := objectUuid }
  else none

/-- Embeds `scene.getObjectByProperty('uuid', …)` as a lookup over the
live scene nodes. -/
def getObjectByUuid (scene : List SceneNode) (u : ℕ) : Option SceneNode :=
  scene.find? (fun o => o.uuid == u)

/-- Embeds the per-tick world-position re-derivation in the newest
MeasurementMarkers: when the stored point carries a local point and an
owner uuid and the owner is found in the live scene, apply the owner's
current world matrix to the stored local point; otherwise fall back to
the originally captured world point. -/
noncomputable def deriveWorldPoint (scene : List SceneNode) (mp : MeasurePoint) : Vec3 :=
  match mp.localPoint, mp.objectUuid with
  | some lp, some u =>
    match getObjectByUuid scene u with
    | some obj => localToWorld obj.pose lp
    | none => mp.point
  | _, _ => mp.point

/-! ## Claim C7 : local-space persistence and per-tick re-derivation -/

/-- C7: a point stored in measure mode for a hit object holds the snapped
world point together with its conversion into the object's local space;
each tick the world position is re-derived by applying the live world
matrix of the owning node to the stored local point, falling back to the
captured world point when the owner is absent from the scene; and when
the owner is found with its capture-time placement (well-formed), the
re-derived position reproduces the stored world point exactly. -/
theorem measure_point_local_persistence :
    (∀ (e : ClickEvent) (snapped : Vec3) (mp : MeasurePoint) (o : SceneNode),
        handleClickStored true e snapped = some mp → e.object = some o →
        mp.point = snapped
        ∧ mp.localPoint = some (worldToLocal o.pose snapped)
        ∧ mp.objectUuid = some o.uuid)
    ∧ (∀ (scene : List SceneNode) (mp : MeasurePoint) (lp : Vec3) (u : ℕ) (obj : SceneNode),
        mp.localPoint = some lp → mp.objectUuid = some u →
        getObjectByUuid scene u = some obj →
        deriveWorldPoint scene mp = localToWorld obj.pose lp)
    ∧ (∀ (scene : List SceneNode) (mp : MeasurePoint) (lp : Vec3) (u : ℕ),
        mp.localPoint = some lp → mp.objectUuid = some u →
        getObjectByUuid scene u = none →
        deriveWorldPoint scene mp = mp.point)
    ∧ (∀ (e : ClickEvent) (snapped : Vec3) (mp : MeasurePoint) (o : SceneNode)
        (scene : List SceneNode),
        handleClickStored true e snapped = some mp → e.object = some o →
        o.pose.WellFormed → getObjectByUuid scene o.uuid = some o →
        deriveWorldPoint scene mp = mp.point) := by
  have hstore : ∀ (e : ClickEvent) (snapped : Vec3) (mp : MeasurePoint) (o : SceneNode),
      handleClickStored true e snapped = some mp → e.object = some o →
      mp.point = snapped
      ∧ mp.localPoint = some (worldToLocal o.pose snapped)
      ∧ mp.objectUuid = some o.uuid := by
    intro e snapped mp o hmp ho
    simp only [handleClickStored, ho, Option.map_some', if_true] at hmp
    by_cases hsn : snapped = e.point
    · rw [if_pos hsn] at hmp
      obtain rfl := Option.some.inj hmp
      exact ⟨hsn.symm, by rw [hsn], rfl⟩
    · rw [if_neg hsn] at hmp
      obtain rfl := Option.some.inj hmp
      exact ⟨rfl, rfl, rfl⟩
  have hfound : ∀ (scene : List SceneNode) (mp : MeasurePoint) (lp : Vec3) (u : ℕ)
      (obj : SceneNode),
      mp.localPoint = some lp → mp.objectUuid = some u →
      getObjectByUuid scene u = some obj →
      deriveWorldPoint scene mp = localToWorld obj.pose lp := by
    intro scene mp lp u obj hlp hu hobj
    simp only [deriveWorldPoint, hlp, hu, hobj]
  refine ⟨hstore, hfound, ?_, ?_⟩
  · intro scene mp lp u hlp hu hnone
    simp only [deriveWorldPoint, hlp, hu, hnone]
  · intro e snapped mp o scene hmp ho hwf hlive
    obtain ⟨hpt, hlp, hu⟩ := hstore e snapped mp o hmp ho
    rw [hfound scene mp (worldToLocal o.pose snapped) o.uuid o hlp hu hlive,
      localToWorld_worldToLocal hwf, hpt]

/-- Concrete scene node used by the C7 witness. -/
noncomputable def witnessNode : SceneNode := ⟨7, idPose⟩

/-- Concrete click event used by the C7 witness. -/
noncomputable def witnessClick : ClickEvent := ⟨⟨1, 2, 3⟩, some witnessNode⟩

/-- The measure point stored for the witness click. -/
noncomputable def witnessMP : MeasurePoint :=
  ⟨⟨1, 2, 3⟩, some (worldToLocal idPose ⟨1, 2, 3⟩), some 7⟩

/-- C7 witness: a concrete click on a node at the identity placement
stores the snapped point with its local conversion, and the re-derivation
over a live scene containing that node returns the stored world point. -/
theorem measure_point_local_persistence_witness :
    deriveWorldPoint [witnessNode] witnessMP = Vec3.mk 1 2 3 := by
  have hclick : handleClickStored true witnessClick ⟨1, 2, 3⟩ = some witnessMP := by
    simp [handleClickStored, witnessClick, witnessNode, witnessMP]
  exact measure_point_local_persistence.2.2.2 witnessClick ⟨1, 2, 3⟩ witnessMP witnessNode
    [witnessNode] hclick rfl idPose_wellFormed (by simp [getObjectByUuid, witnessNode])

/-! ## ColorAssigner : tint and restore -/

/-- A mesh of the working clone: stable node identity plus its current
material. -/
structure SceneMesh where
  uuid : ℕ
  material : Material
  deriving Repr, DecidableEq

/-- The per-node baseline materials captured at load (the
`originalMaterials` map): each material is cloned before the normalizer
mutates the working clone. -/
def captureBaselines (meshes : List SceneMesh) : List (ℕ × Material) :=
  meshes.map (fun mesh => (mesh.uuid, mesh.material))

/-- The load-time traverse normalizing every working-clone material. -/
def normalizeScene (hasGeomColorAttr : Bool) (meshes : List SceneMesh) : List SceneMesh :=
  meshes.map (fun mesh =>
    { mesh with material := normalizeMaterial hasGeomColorAttr mesh.material })

/-- The tint branch of the color-mode traverse body: write the chosen
color for this mesh into the color channel, touching nothing else. -/
def tintMesh (tintOf : ℕ → ColorRGB) (mesh : SceneMesh) : SceneMesh :=
  { mesh with material := { mesh.material with color := tintOf mesh.uuid } }

/-- The restore branch of the color-mode traverse body: copy the color
channel back from the baseline stored for this mesh's uuid, touching
nothing else; a mesh with no stored baseline is left untouched. -/
def restoreMesh (baselines : List (ℕ × Material)) (mesh : SceneMesh) : SceneMesh :=
  match baselines.lookup mesh.uuid with
  | some orig => { mesh with material := { mesh.material with color := orig.color } }
  | none => mesh

/-- Embeds the color-mode traverse of ModelViewer.  With the flag on,
each mesh color is set to the tint chosen for it (hash-derived in one
revision, requested-or-random in the newest; the choice is the parameter
`tintOf`); with the flag off, the color channel is copied back from the
baseline material captured at load. -/
def applyColorMode (colorMode : Bool) (tintOf : ℕ → ColorRGB)
    (baselines : List (ℕ × Material)) (meshes : List SceneMesh) : List SceneMesh :=
  meshes.map (fun mesh =>
    if colorMode then tintMesh tintOf mesh else restoreMesh baselines mesh)

theorem lookup_captureBaselines (meshes : List SceneMesh)
    (hnd : (meshes.map SceneMesh.uuid).Nodup) :
    ∀ mesh ∈ meshes, (captureBaselines meshes).lookup mesh.uuid = some mesh.material := by
  induction meshes with
  | nil => intro mesh hm; cases hm
  | cons head rest ih =>
    have hnd2 := hnd
    rw [List.map_cons, List.nodup_cons] at hnd2
    intro mesh hm
    rcases List.mem_cons.mp hm with rfl | hrest
    · simp [captureBaselines, List.lookup]
    · have hne : mesh.uuid ≠ head.uuid := by
        intro hcontra
        exact hnd2.1 (hcontra ▸ List.mem_map_of_mem SceneMesh.uuid hrest)
      have hbeq : (mesh.uuid == head.uuid) = false := by simpa using hne
      simp only [captureBaselines, List.map_cons, List.lookup, hbeq]
      simpa [captureBaselines] using ih hnd2.2 mesh hrest

/-! ## Claim C8 : color toggle tinted → restored -/

/-- C8: with the baselines captured at load, tinting the normalized scene
and then restoring leaves every mesh with exactly its load-time baseline
color on an otherwise normalized (and by the tint pass otherwise
untouched) material — both passes write nothing but the color channel. -/
theorem color_restore_baseline (g : Bool) (tintOf : ℕ → ColorRGB)
    (meshes : List SceneMesh) (hnd : (meshes.map SceneMesh.uuid).Nodup) :
    applyColorMode true tintOf (captureBaselines meshes) (normalizeScene g meshes)
      = meshes.map (fun mesh =>
          { mesh with material :=
              { normalizeMaterial g mesh.material with color := tintOf mesh.uuid } })
    ∧ applyColorMode false tintOf (captureBaselines meshes)
        (applyColorMode true tintOf (captureBaselines meshes) (normalizeScene g meshes))
      = meshes.map (fun mesh =>
          { mesh with material :=
              { normalizeMaterial g mesh.material with color := mesh.material.color } }) := by
  have hB := lookup_captureBaselines meshes hnd
  have hstep : ∀ mesh ∈ meshes,
      restoreMesh (captureBaselines meshes)
          (tintMesh tintOf
            { mesh with material := normalizeMaterial g mesh.material })
        = { mesh with material :=
            { normalizeMaterial g mesh.material with color := mesh.material.color } } := by
    intro mesh hm
    simp only [restoreMesh, tintMesh]
    rw [hB mesh hm]
  constructor
  · unfold applyColorMode normalizeScene
    rw [List.map_map]
    apply List.map_congr_left
    intro mesh _
    rfl
  · unfold applyColorMode normalizeScene
    rw [List.map_map, List.map_map]
    apply List.map_congr_left
    intro mesh hm
    exact hstep mesh hm

/-- C8 witness: a two-mesh scene with distinct uuids round-trips through
tint and restore back to its baseline colors. -/
theorem color_restore_baseline_witness :
    applyColorMode false (fun _ => ⟨1, 0, 0⟩)
        (captureBaselines ([⟨1, cexMaterial⟩, ⟨2, cexMaterial⟩] : List SceneMesh))
        (applyColorMode true (fun _ => ⟨1, 0, 0⟩)
          (captureBaselines ([⟨1, cexMaterial⟩, ⟨2, cexMaterial⟩] : List SceneMesh))
          (normalizeScene false ([⟨1, cexMaterial⟩, ⟨2, cexMaterial⟩] : List SceneMesh)))
      = List.map (fun mesh : SceneMesh =>
          { mesh with material :=
              { normalizeMaterial false mesh.material with color := mesh.material.color } })
          ([⟨1, cexMaterial⟩, ⟨2, cexMaterial⟩] : List SceneMesh) :=
  (color_restore_baseline false (fun _ => ⟨1, 0, 0⟩)
    ([⟨1, cexMaterial⟩, ⟨2, cexMaterial⟩] : List SceneMesh) (by decide)).2

end CogniCAD
